import Mathlib

/-!
Verification of the Darwin evolutionary trading engine
(`app/darwin_engine.py`) and the BIF regime analyzer (`app/bif_brain.py`).

Shallow embedding conventions:
* Python floats are embedded as exact rationals `ℚ` (the claims under test
  are order/algebra facts, not rounding facts); the entropy computation,
  which genuinely needs a logarithm, is embedded over `ℝ` with `Real.log`.
* Python dictionaries with known key sets become structures whose fields are
  `Option`-valued when the source uses `dict.get` with a default.
* Code that can raise is embedded with `Except`/`Option`; a `.error`/`none`
  result models a raised exception (non-return).
* `random.*` draws are passed in explicitly as an oracle stream, and the
  unbounded `while` loop in `evolve_population` takes explicit fuel: a `none`
  result means the loop did not finish within the given fuel.
-/

namespace Darwin

/-- Trade/vote actions, the `'BUY' / 'SELL' / 'HOLD'` strings of the source. -/
inductive Action where
  | BUY
  | SELL
  | HOLD
deriving DecidableEq, Repr

/-- Strategy directions, the `'LONG' / 'SHORT' / 'BOTH'` strings. -/
inductive Direction where
  | LONG
  | SHORT
  | BOTH
deriving DecidableEq, Repr

/-- The six concrete `ShadowStrategy` subclasses of `darwin_engine.py`. -/
inductive Family where
  | TrendHawk
  | MeanReverter
  | RSI_Matrix
  | MACD_Cross
  | Sniper
  | TrendPullback
deriving DecidableEq, Repr

/-- MACD speed parameter values (`'STD'` / `'FAST'`). -/
inductive Speed where
  | STD
  | FAST
deriving DecidableEq, Repr

/-- The `params` dict of a strategy.  Each field is `none` when the key is
absent; readers use `Option.getD` exactly where the source uses
`params.get(key, default)`. -/
structure Params where
  period : Option ℕ := none
  std_dev : Option ℚ := none
  lower : Option ℕ := none
  upper : Option ℕ := none
  speed : Option Speed := none
  require_trend : Option Bool := none
deriving DecidableEq, Repr

/-- An open virtual position: the dict
`{'entry': float, 'type': 'BUY'/'SELL', 'sl': float, 'tp': float}`
stored in `self.active_trade`. -/
structure Trade where
  entry : ℚ
  type : Action
  sl : ℚ
  tp : ℚ
deriving DecidableEq, Repr

/-- One genotype: the identity fields (`name`, subclass, `direction`,
`params`) together with the mutable `ShadowStrategy` performance state.
The `trade_history` list is not modelled (it is append-only and unread by
everything the claims mention). -/
structure Strategy where
  family : Family
  name : String
  direction : Direction
  params : Params
  phantom_equity : ℚ
  peak_equity : ℚ
  max_drawdown : ℚ
  win_streak : ℕ
  loss_streak : ℕ
  active_trade : Option Trade
deriving DecidableEq, Repr

/-- `ShadowStrategy.__init__` / a fresh subclass instance: virtual $10k,
no drawdown, no streaks, no open position. -/
def mkFresh (f : Family) (name : String) (dir : Direction) (params : Params) :
    Strategy :=
  { family := f
    name := name
    direction := dir
    params := params
    phantom_equity := 10000
    peak_equity := 10000
    max_drawdown := 0
    win_streak := 0
    loss_streak := 0
    active_trade := none }

/-- Floating P&L of an open virtual trade at `price`
(`vol_scale = 1000`, lines 59–64 of `darwin_engine.py`). -/
def floatingPnL (t : Trade) (price : ℚ) : ℚ :=
  if t.type = Action.BUY then (price - t.entry) * 1000 else (t.entry - price) * 1000

/-- The stop/take-profit simulation of `update_performance` (lines 75–80):
returns `some closed_pnl` (per-unit, before `vol_scale`) when the virtual
position closes at `price`, `none` otherwise. -/
def closedPnL (t : Trade) (price : ℚ) : Option ℚ :=
  if t.type = Action.BUY then
    if price ≤ t.sl then some (t.sl - t.entry)
    else if t.tp ≤ price then some (t.tp - t.entry)
    else none
  else if t.type = Action.SELL then
    if t.sl ≤ price then some (t.entry - t.sl)
    else if price ≤ t.tp then some (t.entry - t.tp)
    else none
  else none

/-- The refreshed peak (`if equity_now > self.peak_equity`, lines 97–98). -/
def ddPeak (s : Strategy) (equityNow : ℚ) : ℚ :=
  if s.peak_equity < equityNow then equityNow else s.peak_equity

/-- Drawdown tracking (lines 96–102): refresh `peak_equity` from
`equity_now` and fold the new drawdown reading into `max_drawdown`. -/
def trackDD (s : Strategy) (equityNow : ℚ) : Strategy :=
  { s with
    peak_equity := ddPeak s equityNow
    max_drawdown :=
      if s.max_drawdown < (ddPeak s equityNow - equityNow) / ddPeak s equityNow
      then (ddPeak s equityNow - equityNow) / ddPeak s equityNow
      else s.max_drawdown }

/-- Realizing a closed virtual trade (lines 82–94): credit the scaled P&L,
update the win/loss streaks, clear the position. -/
def settle (s : Strategy) (pnl : ℚ) : Strategy :=
  { s with
    phantom_equity := s.phantom_equity + pnl * 1000
    win_streak := if 0 < pnl * 1000 then s.win_streak + 1 else 0
    loss_streak := if 0 < pnl * 1000 then 0 else s.loss_streak + 1
    active_trade := none }

/-- `ShadowStrategy.update_performance(current_price)` (lines 51–102):
mark-to-market the open virtual position, realize it if the price crossed
its stop or take-profit (updating equity, streaks, and clearing the
position), then unconditionally track peak equity and max drawdown from the
floating-inclusive equity estimate. -/
def update_performance (s : Strategy) (price : ℚ) : Strategy :=
  match s.active_trade with
  | none => trackDD s s.phantom_equity
  | some t =>
    match closedPnL t price with
    | some pnl => trackDD (settle s pnl) (settle s pnl).phantom_equity
    | none => trackDD s (s.phantom_equity + floatingPnL t price)

/-- The engine's trade opening step (`DarwinEngine.update`, lines 689–695):
when a strategy has no open virtual position and emits a directional signal,
a virtual trade is opened at the current price with the signal's levels. -/
def openTrade (s : Strategy) (price : ℚ) (act : Action) (sl tp : ℚ) : Strategy :=
  { s with active_trade := some { entry := price, type := act, sl := sl, tp := tp } }

/-- The floating-inclusive equity estimate of a strategy at `price`: phantom
equity plus the floating P&L of the open position, if any.  This is the
`equity_now` quantity that `update_performance` feeds into drawdown
tracking. -/
def equityAt (s : Strategy) (price : ℚ) : ℚ :=
  s.phantom_equity + (match s.active_trade with
                      | none => 0
                      | some t => floatingPnL t price)

/-- Iterated `update_performance` over a price sequence. -/
def runUpdates (s : Strategy) (prices : List ℚ) : Strategy :=
  prices.foldl update_performance s

/-- `pat` starts `txt` (character lists). -/
def startsWithL : List Char → List Char → Bool
  | [], _ => true
  | _ :: _, [] => false
  | a :: as, b :: bs => a == b && startsWithL as bs

/-- Substring occurrence on character lists. -/
def containsL (pat : List Char) : List Char → Bool
  | [] => pat.isEmpty
  | c :: rest => startsWithL pat (c :: rest) || containsL pat rest

/-- Python's `pat in txt` substring test for strings. -/
def containsSub (txt pat : String) : Bool :=
  containsL pat.toList txt.toList

/-- The regime context consulted by `get_quality_score`.  `base_hurst` is the
value of `mtf_regime.get('BASE', {}).get('hurst', 0.5)` (defaults already
applied), `trend` the value of `mtf_regime.get('trend', 'NEUTRAL')`. -/
structure Regime where
  base_hurst : ℚ
  trend : String
deriving DecidableEq, Repr

/-- Line 121: `any(x in self.name for x in ["TrendHawk", "MACD_Cross", "Sniper"])`. -/
def isTrendStratName (name : String) : Bool :=
  containsSub name "TrendHawk" || containsSub name "MACD_Cross" || containsSub name "Sniper"

/-- Line 136: `any(x in self.name for x in ["MeanRev", "RSI_Matrix"])`. -/
def isMeanRevName (name : String) : Bool :=
  containsSub name "MeanRev" || containsSub name "RSI_Matrix"

/-- The regime boost of `get_quality_score` (lines 112–140).  Gold-tuned
values: trend strategies get 1.5 when trending and directionally aligned,
0.6 against the trend, 0.85 in a non-trending regime; mean-reversion
strategies get 1.2 below Hurst 0.45 and 0.7 otherwise. -/
def regimeBoost (name : String) (dir : Direction) (rg : Option Regime) : ℚ :=
  match rg with
  | none => 1
  | some r =>
    if isTrendStratName name then
      if 11/20 < r.base_hurst then
        if containsSub r.trend "BULLISH" then
          if dir = Direction.LONG ∨ dir = Direction.BOTH then 3/2
          else if dir = Direction.SHORT then 3/5
          else 1
        else if containsSub r.trend "BEARISH" then
          if dir = Direction.SHORT ∨ dir = Direction.BOTH then 3/2
          else if dir = Direction.LONG then 3/5
          else 1
        else 1
      else 17/20
    else if isMeanRevName name then
      if r.base_hurst < 9/20 then 6/5 else 7/10
    else 1

/-- The hot-hand bonus (lines 148–151): +10% at a 2 win streak, +25% at 3,
+50% at 5, reset to neutral otherwise. -/
def streakBonus (w : ℕ) : ℚ :=
  if 5 ≤ w then 3/2
  else if 3 ≤ w then 5/4
  else if 2 ≤ w then 11/10
  else 1

/-- `ShadowStrategy.get_quality_score(mtf_regime)` (lines 104–154):
`(phantom_equity * regime_boost * streak_bonus) / (1 + 2 * max_drawdown)`. -/
def get_quality_score (s : Strategy) (rg : Option Regime) : ℚ :=
  (s.phantom_equity * regimeBoost s.name s.direction rg * streakBonus s.win_streak) /
    (1 + s.max_drawdown * 2)

/-- Vote tallying of `get_consensus_signal`: count of a given action among
the jury's signals. -/
def countVotes (l : List Action) (a : Action) : ℕ :=
  l.count a

/-- The consensus decision ladder of `get_consensus_signal`
(lines 1084–1123), as a function of the BUY tally, the SELL tally and the
jury size, returning the final action and confidence: unanimity ⇒ 1.0;
majority of ≥ 2 ⇒ `0.6 + winners/total * 0.3`; equal directional votes ≥ 2
⇒ HOLD; a single directional vote with no opposition ⇒ 0.55 ("lone wolf");
otherwise HOLD ("hung jury").  `HOLD` outcomes leave the initial
`confidence = 0.0`. -/
def juryDecision (buy sell total : ℕ) : Action × ℚ :=
  if buy = total then (Action.BUY, 1)
  else if sell = total then (Action.SELL, 1)
  else if sell < buy ∧ 2 ≤ buy then (Action.BUY, 3/5 + (buy : ℚ) / (total : ℚ) * (3/10))
  else if buy < sell ∧ 2 ≤ sell then (Action.SELL, 3/5 + (sell : ℚ) / (total : ℚ) * (3/10))
  else if buy = sell ∧ 2 ≤ buy then (Action.HOLD, 0)
  else if buy = 1 ∧ sell = 0 then (Action.BUY, 11/20)
  else if sell = 1 ∧ buy = 0 then (Action.SELL, 11/20)
  else (Action.HOLD, 0)

/-- The consensus outcome for a jury's list of votes: the decision ladder
applied to the BUY/SELL tallies with `total_votes = len(jury)`. -/
def consensusOf (votes : List Action) : Action × ℚ :=
  juryDecision (countVotes votes Action.BUY) (countVotes votes Action.SELL) votes.length

/-- One entry of the persisted population snapshot (`save_state`,
lines 626–638): identity plus the metrics dict. -/
structure SnapEntry where
  name : String
  cls : Family
  direction : Direction
  params : Params
  equity : ℚ
  peak : ℚ
  dd : ℚ
  wins : ℕ
  losses : ℕ
deriving DecidableEq, Repr

/-- `save_state`'s per-strategy serialization (lines 622–638).  `cls` is
`strat.__class__.__name__`; the open `active_trade` is not persisted. -/
def saveEntry (s : Strategy) : SnapEntry :=
  { name := s.name
    cls := s.family
    direction := s.direction
    params := s.params
    equity := s.phantom_equity
    peak := s.peak_equity
    dd := s.max_drawdown
    wins := s.win_streak
    losses := s.loss_streak }

/-- The memory-decay factor chosen by `load_state` (lines 534–544) from the
snapshot age in hours: 0.5 when the snapshot is more than 1 hour old
("stale"), 0.95 otherwise ("recent"). -/
def decayFor (hoursOld : ℚ) : ℚ :=
  if 1 < hoursOld then 1/2 else 19/20

/-- `load_state`'s per-entry rehydration in the new ("population") format
(lines 551–577): re-instantiate the class from its name via
`_get_strategy_class` (total here because `cls` is already one of the six
known families), then restore the metrics with decay applied: the stored
P&L is shrunk toward the 10 000 baseline by `decay`, `peak_equity` is
re-derived (not read back), `max_drawdown` is scaled by `decay`, and the
streaks survive only when `decay ≥ 1`. -/
def loadEntry (decay : ℚ) (e : SnapEntry) : Strategy :=
  let strat := mkFresh e.cls e.name e.direction e.params
  let pnl := e.equity - 10000
  let phantom := 10000 + pnl * decay
  { strat with
    phantom_equity := phantom
    peak_equity := max 10000 phantom
    max_drawdown := e.dd * decay
    win_streak := if 1 ≤ decay then e.wins else 0
    loss_streak := if 1 ≤ decay then e.losses else 0 }

/-- Save-then-load round trip for one strategy, with the snapshot
`hoursOld` hours old at load time. -/
def roundTrip (s : Strategy) (hoursOld : ℚ) : Strategy :=
  loadEntry (decayFor hoursOld) (saveEntry s)

/-- One OHLC bar of the price window (only the fields the Darwin strategies
read). -/
structure Bar where
  high : ℚ
  low : ℚ
  close : ℚ
deriving DecidableEq, Repr

/-- The pre-computed indicator map, restricted to what `TrendHawk` reads.
`none` models an absent key; the source falls back
`indicators.get('ema_50', indicators.get('EMA_50', 0))`, collapsed here to
one optional field with default 0. -/
structure Indicators where
  ema_50 : Option ℚ := none
deriving DecidableEq, Repr

/-- Maximum of a list of rationals. -/
def listMax : List ℚ → Option ℚ
  | [] => none
  | h :: t => some (t.foldl max h)

/-- Minimum of a list of rationals. -/
def listMin : List ℚ → Option ℚ
  | [] => none
  | h :: t => some (t.foldl min h)

/-- `series.shift(1).rolling(period).max().iloc[-1]` (line 174): the maximum
of the `period` values preceding the last bar, `none` (NaN) when fewer than
`period` such values exist. -/
def rollingMaxLast (period : ℕ) (xs : List ℚ) : Option ℚ :=
  let ys := xs.dropLast
  if period ≤ ys.length then listMax (ys.drop (ys.length - period)) else none

/-- `series.shift(1).rolling(period).min().iloc[-1]` (line 175). -/
def rollingMinLast (period : ℕ) (xs : List ℚ) : Option ℚ :=
  let ys := xs.dropLast
  if period ≤ ys.length then listMin (ys.drop (ys.length - period)) else none

/-- A strategy signal dict.  `reason` is `none` when the source dict carries
no `'reason'` key. -/
structure Signal where
  action : Action
  confidence : ℚ
  sl : ℚ
  tp : ℚ
  reason : Option String
deriving DecidableEq, Repr

/-- The silent HOLD produced by the directional filter (lines 39, 42):
`{'action': 'HOLD', 'confidence': 0, 'sl': 0, 'tp': 0}` — no reason key. -/
def silentHold : Signal :=
  { action := Action.HOLD, confidence := 0, sl := 0, tp := 0, reason := none }

/-- A HOLD signal with an explicit reason string. -/
def holdWith (r : String) : Signal :=
  { action := Action.HOLD, confidence := 0, sl := 0, tp := 0, reason := some r }

/-- `TrendHawk._generate_raw_signal` (lines 161–210).  A `.error` result
models a raised exception: `df.iloc[-1]` on an empty window raises
`IndexError` before any insufficiency check runs.  With enough bars the
rule is a breakout against the previous `period` highs/lows with an
optional EMA-50 trend filter. -/
def trendHawkRaw (params : Params) (direction : Direction) (df : List Bar)
    (ind : Indicators) : Except String Signal :=
  match df.getLast? with
  | none => Except.error "IndexError: single positional indexer is out-of-bounds"
  | some lastBar =>
    let current_price := lastBar.close
    let period := params.period.getD 20
    let ema_50 := ind.ema_50.getD 0
    match rollingMaxLast period (df.map Bar.high),
          rollingMinLast period (df.map Bar.low) with
    | some high_x, some low_x =>
      let is_bullish_trend : Bool :=
        if params.require_trend.getD false then decide (ema_50 < current_price) else true
      let is_bearish_trend : Bool :=
        if params.require_trend.getD false then decide (current_price < ema_50) else true
      if (direction = Direction.LONG ∨ direction = Direction.BOTH) ∧
          is_bullish_trend = true ∧ high_x ≤ current_price then
        let risk := current_price - low_x
        if risk ≤ 0 then Except.ok (holdWith "Zero Risk Distance")
        else Except.ok
          { action := Action.BUY, confidence := 17/20, sl := low_x,
            tp := current_price + 2 * risk,
            reason := some ("Breakout above " ++ toString period ++ "p High") }
      else if (direction = Direction.SHORT ∨ direction = Direction.BOTH) ∧
          is_bearish_trend = true ∧ current_price ≤ low_x then
        let risk := high_x - current_price
        if risk ≤ 0 then Except.ok (holdWith "Zero Risk Distance")
        else Except.ok
          { action := Action.SELL, confidence := 17/20, sl := high_x,
            tp := current_price - 2 * risk,
            reason := some ("Breakout below " ++ toString period ++ "p Low") }
      else Except.ok (holdWith "No Breakout")
    | _, _ => Except.ok (holdWith "Insufficient Data for Period")

/-- `ShadowStrategy.generate_signal` (lines 33–44): the directional filter
around a raw signal — a LONG-only genotype converts raw SELL to a silent
HOLD, a SHORT-only genotype converts raw BUY; exceptions propagate. -/
def generate_signal (direction : Direction) (raw : Except String Signal) :
    Except String Signal :=
  match raw with
  | Except.error e => Except.error e
  | Except.ok signal =>
    if signal.action = Action.BUY ∧ direction = Direction.SHORT then Except.ok silentHold
    else if signal.action = Action.SELL ∧ direction = Direction.LONG then Except.ok silentHold
    else Except.ok signal

/-- `generate_signal` of a `TrendHawk` genotype. -/
def trendHawkSignal (params : Params) (direction : Direction) (df : List Bar)
    (ind : Indicators) : Except String Signal :=
  generate_signal direction (trendHawkRaw params direction df ind)

/-- Running cumulative sums (`np.cumsum`). -/
def cumsum (l : List ℚ) : List ℚ :=
  (l.foldl (fun acc x =>
    match acc with
    | [] => [x]
    | y :: ys => (y + x) :: y :: ys) []).reverse

/-- The lag sizes of `_calculate_hurst` (`bif_brain.py` lines 169–171):
`range(10, min(len(ts) // 2, 100))`. -/
def hurstLags (n : ℕ) : List ℕ :=
  List.range' 10 (min (n / 2) 100 - 10)

/-- Whether the rescaled-range value of one chunk is a valid (positive)
point (lines 182–202).  The code appends `0` when the chunk's standard
deviation `s` is zero and `r / s` otherwise, then keeps only positive
values; since `r ≥ 0` and `s = √(variance) > 0` whenever the variance is
nonzero, `r / s > 0 ⟺ variance ≠ 0 ∧ r > 0`, which is rational-decidable
without the square root. -/
def rsPositive (chunk : List ℚ) : Bool :=
  let n : ℚ := chunk.length
  let m := chunk.sum / n
  let y := chunk.map (fun x => x - m)
  let z := cumsum y
  let r := (listMax z).getD 0 - (listMin z).getD 0
  let variance := (y.map (fun v => v * v)).sum / n
  decide (¬ variance = 0) && decide (0 < r)

/-- The lags contributing valid `(log lag, log (R/S))` pairs for the
least-squares fit: lag `L` uses the most recent `L` points of the series
(`chunk = ts[-lag:]`, line 182). -/
def validHurstLags (ts : List ℚ) : List ℕ :=
  (hurstLags ts.length).filter (fun lag => rsPositive (ts.drop (ts.length - lag)))

/-- `BIFBrain._calculate_hurst` (lines 158–218), parameterized by the
least-squares slope fit `fit` (the `np.polyfit` of the log/log pairs, whose
logarithms and square roots live outside ℚ; it receives the valid lags and
the series).  With fewer than 3 valid rescaled-range points the function
returns the neutral 0.5 without consulting `fit`; the surrounding
`try/except` makes the Python function total. -/
def calculate_hurst (fit : List ℕ → List ℚ → ℚ) (ts : List ℚ) : ℚ :=
  if (validHurstLags ts).length < 3 then 1/2 else fit (validHurstLags ts) ts

/-- A constant zero stand-in for the least-squares fit, used to evaluate
`calculate_hurst` at concrete inputs. -/
def zeroFit : List ℕ → List ℚ → ℚ :=
  fun _ _ => 0

/-- The histogram range `(lo, hi)` chosen by `np.histogram`: the data's min
and max, widened to `(v - 0.5, v + 0.5)` for constant data and defaulting
to `(0, 1)` for empty data. -/
def histRange (data : List ℚ) : ℚ × ℚ :=
  match listMin data, listMax data with
  | some lo, some hi => if lo = hi then (lo - 1/2, hi + 1/2) else (lo, hi)
  | _, _ => (0, 1)

/-- The index of the equal-width bin (of 20) receiving `x`; the last bin is
right-closed. -/
def binIndex (lo width x : ℚ) : ℕ :=
  min 19 (Int.toNat ⌊(x - lo) / width⌋)

/-- The number of data points landing in bin `i`, for an explicit histogram
origin `lo` and bin width `width`. -/
def binCountW (lo width : ℚ) (data : List ℚ) (i : ℕ) : ℕ :=
  (data.filter (fun x => binIndex lo width x = i)).length

/-- The number of data points landing in bin `i`. -/
def binCount (data : List ℚ) (i : ℕ) : ℕ :=
  binCountW (histRange data).1 (((histRange data).2 - (histRange data).1) / 20) data i

/-- The density-normalized histogram value of bin `i`
(`np.histogram(data, bins=20, density=True)`): `count / (n * binwidth)`.
Note these densities are not probabilities — they sum to `1 / binwidth`,
not to 1. -/
def dens (data : List ℚ) (i : ℕ) : ℚ :=
  (binCount data i : ℚ) /
    ((data.length : ℚ) * (((histRange data).2 - (histRange data).1) / 20))

/-- The non-empty bins (`hist = hist[hist > 0]`, line 143). -/
def nzBins (data : List ℚ) : Finset ℕ :=
  (Finset.range 20).filter (fun i => 0 < dens data i)

/-- The degraded-mode entropy body (line 146, scipy missing):
`-np.sum(hist * np.log(hist))` over the positive density values —
the densities are fed to the logarithm unnormalized. -/
noncomputable def entManual (data : List ℚ) : ℝ :=
  -∑ i ∈ nzBins data, ((dens data i : ℝ) * Real.log (dens data i))

/-- The scipy-mode entropy body (line 148): `scipy.stats.entropy(hist)`
first renormalizes the positive density values into probabilities
`p_i = h_i / Σ h` and returns `Σ -p_i ln p_i`. -/
noncomputable def entScipy (data : List ℚ) : ℝ :=
  ∑ i ∈ nzBins data,
    -((dens data i : ℝ) / (∑ j ∈ nzBins data, (dens data j : ℝ)) *
      Real.log ((dens data i : ℝ) / (∑ j ∈ nzBins data, (dens data j : ℝ))))

/-- `BIFBrain._calculate_entropy` (lines 134–156): the entropy body for the
active code path, normalized by `log(20)`; the surrounding `try/except`
returns 1.0 on any numerical failure, modelled by the `fault` flag (exact
arithmetic has no failing step, so the flag stands for the float-level
exceptions the `except` clause exists for). -/
noncomputable def calculate_entropy (mlAvailable fault : Bool) (data : List ℚ) : ℝ :=
  if fault then 1
  else (if mlAvailable then entScipy data else entManual data) / Real.log 20

/-- Content of a file-system path in the atomic-save model: absent,
half-written (a crash interrupted the write), or a complete serialized
snapshot with payload `v`. -/
inductive FileContent where
  | absent
  | halfWritten
  | full (v : ℕ)
deriving DecidableEq, Repr

/-- The two paths `save_state` touches: the target `darwin_state.json` and
the temporary `darwin_state.json.tmp`. -/
structure FS where
  target : FileContent
  temp : FileContent
deriving DecidableEq, Repr

/-- Every file-system state reachable if the process crashes after any step
of `save_state`'s write sequence (lines 646–654): initial state, crash in
the middle of writing the temp file, temp write completed, old target
removed, temp renamed over the target.  `d` is the new snapshot payload. -/
def saveStates (s0 : FS) (d : ℕ) : List FS :=
  [s0,
   { target := s0.target, temp := FileContent.halfWritten },
   { target := s0.target, temp := FileContent.full d },
   { target := FileContent.absent, temp := FileContent.full d },
   { target := FileContent.full d, temp := FileContent.absent }]

/-- The target path does not hold a half-written file. -/
def targetParseable (s : FS) : Prop :=
  s.target ≠ FileContent.halfWritten

instance (s : FS) : Decidable (targetParseable s) := by
  unfold targetParseable
  infer_instance

/-- The `'LONG' / 'SHORT' / 'BOTH'` string of a direction, as interpolated
into clone names. -/
def dirStr : Direction → String
  | Direction.LONG => "LONG"
  | Direction.SHORT => "SHORT"
  | Direction.BOTH => "BOTH"

/-- The `'STD' / 'FAST'` string of a MACD speed. -/
def speedStr : Speed → String
  | Speed.STD => "STD"
  | Speed.FAST => "FAST"

/-- Python's `f"{d:.1f}"` for the non-negative tenths-valued standard
deviations used in `MeanReverter` names. -/
def fmtTenths (q : ℚ) : String :=
  toString ⌊q⌋ ++ "." ++ toString (Int.toNat ⌊q * 10⌋ % 10)

/-- Truncation toward zero, Python's `int(float)`. -/
def intTrunc (q : ℚ) : ℤ :=
  if 0 ≤ q then ⌊q⌋ else ⌈q⌉

/-- Python's `round(x, 1)` for the mutated standard deviation.  (Python
rounds half-to-even; the drifted values are generic, so ties are modelled
as half-up.) -/
def roundTenths (q : ℚ) : ℚ :=
  (⌊q * 10 + 1/2⌋ : ℚ) / 10

/-- The `clone` methods of the six subclasses (lines 212–217, 259–263,
317–318, 356–361, 399–403, 448–449): a fresh instance whose name is
rebuilt from the (possibly mutated) parameters — except `Sniper` and
`TrendPullback`, whose clones keep the parent's exact name and take no
parameters. -/
def cloneS (parent : Strategy) (newParams : Option Params) : Strategy :=
  let params := newParams.getD parent.params
  match parent.family with
  | Family.TrendHawk =>
    let p := params.period.getD 20
    mkFresh Family.TrendHawk
      ("TrendHawk_" ++ dirStr parent.direction ++ "_" ++ toString p ++ "p")
      parent.direction params
  | Family.MeanReverter =>
    let d := params.std_dev.getD 2
    mkFresh Family.MeanReverter
      ("MeanRev_" ++ dirStr parent.direction ++ "_" ++ fmtTenths d ++ "SD")
      parent.direction params
  | Family.RSI_Matrix =>
    let l := params.lower.getD 30
    let u := params.upper.getD 70
    mkFresh Family.RSI_Matrix
      ("RSI_Matrix_" ++ dirStr parent.direction ++ "_" ++ toString l ++ "_" ++ toString u)
      parent.direction params
  | Family.MACD_Cross =>
    let sp := params.speed.getD Speed.STD
    mkFresh Family.MACD_Cross
      ("MACD_Cross_" ++ dirStr parent.direction ++ "_" ++ speedStr sp)
      parent.direction params
  | Family.Sniper => mkFresh Family.Sniper parent.name parent.direction {}
  | Family.TrendPullback => mkFresh Family.TrendPullback parent.name parent.direction {}

/-- The random draws one `mutate` call can consume: `u` models the
`random.uniform(-0.2, 0.2)` drift, `sign` the `random.choice([-1, 1])`
fallback, `k` the `random.randint(-5, 5)` RSI drift. -/
structure MutRand where
  u : ℚ
  sign : Bool
  k : ℤ
deriving DecidableEq, Repr

/-- `DarwinEngine.mutate(parent)` (lines 862–893): parameter drift per
family — period ±20% (minimum 5, zero drift bumped to ±1) for `TrendHawk`,
standard deviation ±0.2 clamped to [1, 4] and rounded to a tenth for
`MeanReverter`, both RSI bounds shifted by the same ±5 with clamps for
`RSI_Matrix`; every other family is cloned unchanged. -/
def mutateS (parent : Strategy) (r : MutRand) : Strategy :=
  match parent.family with
  | Family.TrendHawk =>
    let p := parent.params.period.getD 20
    let drift0 := intTrunc ((p : ℚ) * r.u)
    let drift := if drift0 = 0 then (if r.sign then 1 else -1) else drift0
    let newp := (max 5 ((p : ℤ) + drift)).toNat
    cloneS parent (some { parent.params with period := some newp })
  | Family.MeanReverter =>
    let d := parent.params.std_dev.getD 2
    let nd := roundTenths (max 1 (min 4 (d + r.u)))
    cloneS parent (some { parent.params with std_dev := some nd })
  | Family.RSI_Matrix =>
    let l := parent.params.lower.getD 30
    let u := parent.params.upper.getD 70
    let nl := (max 10 (min 45 ((l : ℤ) + r.k))).toNat
    let nu := (max 55 (min 90 ((u : ℤ) + r.k))).toNat
    cloneS parent (some { parent.params with lower := some nl, upper := some nu })
  | _ => cloneS parent none

/-- The quality score used by `evolve_population`'s sort
(`s.get_quality_score()`, line 784 — no regime context). -/
def score0 (s : Strategy) : ℚ :=
  get_quality_score s none

/-- Stable descending insertion for the score sort. -/
def insertDesc (x : Strategy) : List Strategy → List Strategy
  | [] => [x]
  | y :: ys => if score0 y < score0 x then x :: y :: ys else y :: insertDesc x ys

/-- `self.strategies.sort(key=lambda s: s.get_quality_score(), reverse=True)`
(line 784): a stable sort, descending by quality score. -/
def sortPop : List Strategy → List Strategy
  | [] => []
  | x :: xs => insertDesc x (sortPop xs)

/-- One simulated draw of the fill loop's randomness: the parent choice
(`random.choice(parent_pool)`, as an index) plus the mutation draws. -/
structure Choice where
  idx : ℕ
  rand : MutRand
deriving Repr

/-- The mutated child produced from the oracle's parent choice; `none` when
the parent pool is empty (`random.choice([])` raises). -/
def childOf (pool : List Strategy) (c : Choice) : Option Strategy :=
  match pool with
  | [] => none
  | h :: t => some (mutateS ((h :: t).getD (c.idx % (t.length + 1)) h) c.rand)

/-- A default strategy, used only to totalize list indexing in statements. -/
def arbStrat : Strategy :=
  mkFresh Family.Sniper "Sniper_Elite" Direction.BOTH {}

/-- The child of `childOf`, totalized for use in hypotheses. -/
def childD (pool : List Strategy) (c : Choice) : Strategy :=
  (childOf pool c).getD arbStrat

/-- The `while len(next_gen) < MAX_POPULATION` fill loop of
`evolve_population` (lines 807–819): sample a parent from the pool, mutate
it, and append the child unless a member of that name already exists.
`i` indexes the oracle stream; `none` means the loop did not return within
`fuel` iterations (or `random.choice` raised on an empty pool). -/
def fillLoop (pool : List Strategy) (oracle : ℕ → Choice) :
    ℕ → ℕ → List Strategy → Option (List Strategy)
  | i, fuel, acc =>
    if 100 ≤ acc.length then some acc
    else
      match fuel with
      | 0 => none
      | fuel' + 1 =>
        match childOf pool (oracle i) with
        | none => none
        | some child =>
          fillLoop pool oracle (i + 1) fuel'
            (if acc.any (fun s => s.name == child.name) then acc else acc ++ [child])
termination_by _ fuel _ => fuel

/-- One protected seed of the extinction-protection table. -/
structure Seed where
  cls : Family
  name : String
  direction : Direction
  params : Params
deriving DecidableEq, Repr

/-- The `required_seeds` table (lines 824–837), in source order. -/
def requiredSeeds : List Seed :=
  [ { cls := Family.TrendHawk, name := "TrendHawk_LONG_55p",
      direction := Direction.LONG, params := { period := some 55 } },
    { cls := Family.TrendHawk, name := "TrendHawk_SHORT_55p",
      direction := Direction.SHORT, params := { period := some 55 } },
    { cls := Family.MeanReverter, name := "MeanRev_LONG_2.5SD",
      direction := Direction.LONG, params := { std_dev := some (5/2) } },
    { cls := Family.MeanReverter, name := "MeanRev_SHORT_2.5SD",
      direction := Direction.SHORT, params := { std_dev := some (5/2) } },
    { cls := Family.MACD_Cross, name := "MACD_Cross_LONG_FAST",
      direction := Direction.LONG, params := { speed := some Speed.FAST } },
    { cls := Family.MACD_Cross, name := "MACD_Cross_SHORT_FAST",
      direction := Direction.SHORT, params := { speed := some Speed.FAST } },
    { cls := Family.RSI_Matrix, name := "RSI_25_75_LONG",
      direction := Direction.LONG, params := { lower := some 25, upper := some 75 } },
    { cls := Family.RSI_Matrix, name := "RSI_25_75_SHORT",
      direction := Direction.SHORT, params := { lower := some 25, upper := some 75 } },
    { cls := Family.Sniper, name := "Sniper_Elite",
      direction := Direction.BOTH, params := {} },
    { cls := Family.TrendPullback, name := "TrendPullback_LONG",
      direction := Direction.LONG, params := {} },
    { cls := Family.TrendPullback, name := "TrendPullback_SHORT",
      direction := Direction.SHORT, params := {} } ]

/-- `any(isinstance(s, cls) and s.direction == direction for s in next_gen)`
(lines 842–845). -/
def hasSpecies (l : List Strategy) (f : Family) (d : Direction) : Bool :=
  l.any (fun s => decide (s.family = f ∧ s.direction = d))

/-- One extinction-protection step (lines 840–853): if the seed's
(family, direction) species is absent, instantiate the canonical seed and
put it in — overwriting the last member (`next_gen[-1] = seed`) when the
population is at or over the cap, appending otherwise. -/
def injectSeed (acc : List Strategy) (sd : Seed) : List Strategy :=
  if hasSpecies acc sd.cls sd.direction then acc
  else
    let seed := mkFresh sd.cls sd.name sd.direction sd.params
    if 100 ≤ acc.length then acc.dropLast ++ [seed] else acc ++ [seed]

/-- `DarwinEngine.evolve_population` (lines 772–860): sort by quality score
descending; keep `max(5, ⌊count/5⌋)` elites (`int(count * 0.2)` — exact for
these magnitudes); fill up to the hard cap of 100 by mutating parents
sampled from the top half, rejecting duplicate names; then run extinction
protection over the `required_seeds` table.  `none` models a call that
never returns (the fill loop exhausting its fuel, or `random.choice`
raising on an empty parent pool). -/
def evolve_population (pop : List Strategy) (oracle : ℕ → Choice) (fuel : ℕ) :
    Option (List Strategy) :=
  let sorted := sortPop pop
  let count := sorted.length
  let nElites := max 5 (count / 5)
  let elites := sorted.take nElites
  let parentPool := sorted.take (count / 2)
  (fillLoop parentPool oracle 0 fuel elites).map
    (fun nextGen => requiredSeeds.foldl injectSeed nextGen)

/-! ## Concrete instances used in witnesses and counterexamples -/

/-- A fresh `TrendHawk` genotype (one of the engine's initial
population, line 462). -/
def thFresh : Strategy :=
  mkFresh Family.TrendHawk "TrendHawk_LONG_21p" Direction.LONG { period := some 21 }

/-- The genotype state after the engine opens a BUY virtual position at
price 10 (stop 5, take-profit 20) on a fresh `TrendHawk` and the next cycle
calls `update_performance(11)` — the position is still open with +1000
floating P&L. -/
def c2state : Strategy :=
  update_performance (openTrade thFresh 10 Action.BUY 5 20) 11

/-- A `TrendHawk` genotype that has accumulated 2000 of phantom profit. -/
def richTH : Strategy :=
  { thFresh with phantom_equity := 12000, peak_equity := 12000 }

/-- A genotype whose phantom equity has gone negative (reachable: a single
stopped-out trade realizes `(sl − entry) · 1000`, which can exceed the 10000
starting balance for gold-sized prices). -/
def losingStrat : Strategy :=
  { thFresh with phantom_equity := -1000 }

/-- A tightly clustered return series: two points spanning `[0, 0.5]`, so
the 20 histogram bins are `1/40` wide and the two occupied bins get density
value `1 / (2 · 1/40) = 20 > 1`. -/
def cexData : List ℚ :=
  [0, 1/2]

/-- A concrete random stream: always pick parent 0 with zero drift (the
zero-drift fallback then bumps a `TrendHawk` period by +1). -/
def oracleZero : ℕ → Choice :=
  fun _ => { idx := 0, rand := { u := 0, sign := true, k := 0 } }

/-! ## Theorems -/

/-- `trackDD` bookkeeping: the peak and the max drawdown never decrease, a
positive peak stays positive, the recorded max drawdown dominates the
drawdown of the equity reading just folded in, and the other fields are
untouched. -/
theorem trackDD_spec (s : Strategy) (e : ℚ) :
    s.peak_equity ≤ (trackDD s e).peak_equity ∧
    s.max_drawdown ≤ (trackDD s e).max_drawdown ∧
    (0 < s.peak_equity → 0 < (trackDD s e).peak_equity) ∧
    ((trackDD s e).peak_equity - e) / (trackDD s e).peak_equity ≤
      (trackDD s e).max_drawdown ∧
    (trackDD s e).phantom_equity = s.phantom_equity ∧
    (trackDD s e).active_trade = s.active_trade := by
  have hpeak : (trackDD s e).peak_equity = ddPeak s e := rfl
  have hdd : (trackDD s e).max_drawdown =
      if s.max_drawdown < (ddPeak s e - e) / ddPeak s e
      then (ddPeak s e - e) / ddPeak s e else s.max_drawdown := rfl
  have h1 : s.peak_equity ≤ ddPeak s e := by
    unfold ddPeak; split_ifs with h <;> linarith
  have h2 : s.max_drawdown ≤ (trackDD s e).max_drawdown := by
    rw [hdd]; split_ifs with h <;> linarith
  have h3 : (ddPeak s e - e) / ddPeak s e ≤ (trackDD s e).max_drawdown := by
    rw [hdd]; split_ifs with h <;> linarith
  exact ⟨hpeak ▸ h1, h2, fun hp => hpeak ▸ lt_of_lt_of_le hp h1, hpeak ▸ h3, rfl, rfl⟩

/-- `update_performance` on a strategy without an open position. -/
theorem update_performance_eq_none (s : Strategy) (p : ℚ)
    (h : s.active_trade = none) :
    update_performance s p = trackDD s s.phantom_equity := by
  unfold update_performance
  rw [h]

/-- `update_performance` when the open position closes at `price`. -/
theorem update_performance_eq_closed (s : Strategy) (p : ℚ) (t : Trade) (pnl : ℚ)
    (h : s.active_trade = some t) (h2 : closedPnL t p = some pnl) :
    update_performance s p = trackDD (settle s pnl) (settle s pnl).phantom_equity := by
  unfold update_performance
  rw [h]
  dsimp only
  rw [h2]

/-- `update_performance` when the open position stays open at `price`. -/
theorem update_performance_eq_open (s : Strategy) (p : ℚ) (t : Trade)
    (h : s.active_trade = some t) (h2 : closedPnL t p = none) :
    update_performance s p = trackDD s (s.phantom_equity + floatingPnL t p) := by
  unfold update_performance
  rw [h]
  dsimp only
  rw [h2]

/-- Per-call monotonicity of `update_performance`: the peak equity and the
max drawdown never decrease, and a positive peak stays positive. -/
theorem update_performance_mono (s : Strategy) (p : ℚ) :
    s.peak_equity ≤ (update_performance s p).peak_equity ∧
    s.max_drawdown ≤ (update_performance s p).max_drawdown ∧
    (0 < s.peak_equity → 0 < (update_performance s p).peak_equity) := by
  cases hact : s.active_trade with
  | none =>
    rw [update_performance_eq_none s p hact]
    exact ⟨(trackDD_spec s _).1, (trackDD_spec s _).2.1, (trackDD_spec s _).2.2.1⟩
  | some t =>
    cases hcl : closedPnL t p with
    | some pnl =>
      rw [update_performance_eq_closed s p t pnl hact hcl]
      have h := trackDD_spec (settle s pnl) (settle s pnl).phantom_equity
      have hsp : s.peak_equity = (settle s pnl).peak_equity := rfl
      have hsd : s.max_drawdown = (settle s pnl).max_drawdown := rfl
      exact ⟨hsp ▸ h.1, hsd ▸ h.2.1, fun hp => h.2.2.1 (hsp ▸ hp)⟩
    | none =>
      rw [update_performance_eq_open s p t hact hcl]
      exact ⟨(trackDD_spec s _).1, (trackDD_spec s _).2.1, (trackDD_spec s _).2.2.1⟩

/-- Monotonicity over a whole price sequence. -/
theorem runUpdates_mono (s : Strategy) (prices : List ℚ) :
    s.peak_equity ≤ (runUpdates s prices).peak_equity ∧
    s.max_drawdown ≤ (runUpdates s prices).max_drawdown := by
  induction prices generalizing s with
  | nil => exact ⟨le_refl _, le_refl _⟩
  | cons p rest ih =>
    have h1 := update_performance_mono s p
    have h2 := ih (update_performance s p)
    exact ⟨le_trans h1.1 h2.1, le_trans h1.2.1 h2.2⟩

/-- C2 (amended): after every `update_performance(price)` call the recorded
`max_drawdown` dominates the drawdown of the floating-inclusive equity
estimate at that price — `max_drawdown ≥ (peak_equity − equityAt(price)) /
peak_equity` — and this yields the claimed inequality with
`phantom_equity` itself exactly when no virtual position remains open;
`peak_equity` and `max_drawdown` are monotone non-decreasing across the
call and across any sequence of calls.  (The claim's inequality with
`phantom_equity` in place of the floating-inclusive equity fails while a
position is open — see the counterexample.) -/
theorem c2_drawdown_invariant (s : Strategy) (p : ℚ) (prices : List ℚ)
    (hpeak : 0 < s.peak_equity) :
    s.peak_equity ≤ (update_performance s p).peak_equity ∧
    s.max_drawdown ≤ (update_performance s p).max_drawdown ∧
    0 < (update_performance s p).peak_equity ∧
    ((update_performance s p).peak_equity - equityAt (update_performance s p) p) /
        (update_performance s p).peak_equity ≤ (update_performance s p).max_drawdown ∧
    ((update_performance s p).active_trade = none →
      ((update_performance s p).peak_equity - (update_performance s p).phantom_equity) /
          (update_performance s p).peak_equity ≤ (update_performance s p).max_drawdown) ∧
    s.peak_equity ≤ (runUpdates s prices).peak_equity ∧
    s.max_drawdown ≤ (runUpdates s prices).max_drawdown := by
  refine ⟨(update_performance_mono s p).1, (update_performance_mono s p).2.1,
    (update_performance_mono s p).2.2 hpeak, ?_, ?_, (runUpdates_mono s prices).1,
    (runUpdates_mono s prices).2⟩ <;>
  · cases hact : s.active_trade with
    | none =>
      rw [update_performance_eq_none s p hact]
      have h := trackDD_spec s s.phantom_equity
      have he : equityAt (trackDD s s.phantom_equity) p = s.phantom_equity := by
        unfold equityAt
        rw [h.2.2.2.2.2, hact, h.2.2.2.2.1, add_zero]
      first
        | rw [he]
          exact h.2.2.2.1
        | intro _
          rw [h.2.2.2.2.1]
          exact h.2.2.2.1
    | some t =>
      cases hcl : closedPnL t p with
      | some pnl =>
        rw [update_performance_eq_closed s p t pnl hact hcl]
        have h := trackDD_spec (settle s pnl) (settle s pnl).phantom_equity
        have hsact : (settle s pnl).active_trade = none := rfl
        have he : equityAt (trackDD (settle s pnl) (settle s pnl).phantom_equity) p =
            (settle s pnl).phantom_equity := by
          unfold equityAt
          rw [h.2.2.2.2.2, hsact, h.2.2.2.2.1, add_zero]
        first
          | rw [he]
            exact h.2.2.2.1
          | intro _
            rw [h.2.2.2.2.1]
            exact h.2.2.2.1
      | none =>
        rw [update_performance_eq_open s p t hact hcl]
        have h := trackDD_spec s (s.phantom_equity + floatingPnL t p)
        have he : equityAt (trackDD s (s.phantom_equity + floatingPnL t p)) p =
            s.phantom_equity + floatingPnL t p := by
          unfold equityAt
          rw [h.2.2.2.2.2, hact, h.2.2.2.2.1]
        first
          | rw [he]
            exact h.2.2.2.1
          | intro hnone
            rw [h.2.2.2.2.2, hact] at hnone
            exact absurd hnone (by simp)

/-- Witness for `c2_drawdown_invariant` at a fresh genotype. -/
theorem c2_drawdown_invariant_witness :
    (0:ℚ) < thFresh.peak_equity ∧
    thFresh.max_drawdown ≤ (runUpdates thFresh [11, 9]).max_drawdown :=
  ⟨by norm_num [thFresh, mkFresh],
   (c2_drawdown_invariant thFresh 0 [11, 9] (by norm_num [thFresh, mkFresh])).2.2.2.2.2.2⟩

/-- C2 counterexample: the claim's inequality
`max_drawdown ≥ (peak_equity − phantom_equity) / peak_equity` fails on the
code.  From a fresh genotype, open a BUY position at price 10 (stop 5,
take-profit 20) as `DarwinEngine.update` does, then call
`update_performance(11)`: the floating-inclusive equity 11000 raises
`peak_equity` to 11000 while `phantom_equity` stays 10000 and
`max_drawdown` stays 0, so `0 ≥ 1000/11000` is required and false. -/
theorem c2_counterexample :
    ¬ ((c2state.peak_equity - c2state.phantom_equity) / c2state.peak_equity ≤
        c2state.max_drawdown) := by
  have h1 : c2state = trackDD (openTrade thFresh 10 Action.BUY 5 20)
      ((openTrade thFresh 10 Action.BUY 5 20).phantom_equity +
        floatingPnL { entry := 10, type := Action.BUY, sl := 5, tp := 20 } 11) :=
    update_performance_eq_open (openTrade thFresh 10 Action.BUY 5 20) 11
      { entry := 10, type := Action.BUY, sl := 5, tp := 20 } rfl (by decide)
  rw [h1]
  norm_num [trackDD, ddPeak, openTrade, thFresh, mkFresh, floatingPnL]

/-- C3: with a 5-member jury, the consensus decision realizes the claimed
outcomes — 5 BUY votes give `(BUY, 1.0)`; 3 BUY / 2 SELL give BUY with
confidence `0.78 ∈ (0.6, 1)`; 1 BUY with no SELL opposition gives BUY at
the fixed lone-wolf confidence `0.55`; a 2 BUY / 2 SELL split gives HOLD. -/
theorem c3_consensus (votes : List Action) (h5 : votes.length = 5) :
    (countVotes votes Action.BUY = 5 → consensusOf votes = (Action.BUY, 1)) ∧
    (countVotes votes Action.BUY = 3 → countVotes votes Action.SELL = 2 →
      consensusOf votes = (Action.BUY, 39/50) ∧ (3/5 : ℚ) < 39/50 ∧ (39/50 : ℚ) < 1) ∧
    (countVotes votes Action.BUY = 1 → countVotes votes Action.SELL = 0 →
      consensusOf votes = (Action.BUY, 11/20)) ∧
    (countVotes votes Action.BUY = 2 → countVotes votes Action.SELL = 2 →
      (consensusOf votes).1 = Action.HOLD) := by
  unfold consensusOf
  rw [h5]
  refine ⟨fun hb => ?_, fun hb hs => ?_, fun hb hs => ?_, fun hb hs => ?_⟩ <;>
    rw [hb] <;> try rw [hs]
  · norm_num [juryDecision]
  · norm_num [juryDecision]
  · norm_num [juryDecision]
  · norm_num [juryDecision]

/-- Witness for `c3_consensus` on an explicit 3 BUY / 2 SELL jury. -/
theorem c3_consensus_witness :
    consensusOf [Action.BUY, Action.BUY, Action.BUY, Action.SELL, Action.SELL] =
      (Action.BUY, 39/50) ∧ (3/5 : ℚ) < 39/50 ∧ (39/50 : ℚ) < 1 :=
  (c3_consensus [Action.BUY, Action.BUY, Action.BUY, Action.SELL, Action.SELL]
    rfl).2.1 (by decide) (by decide)

/-- C4 (amended): an immediate save/load round trip (snapshot age within
the 1-hour freshness threshold) reproduces the identity tuple
(name, family/class, direction, parameters) exactly, but the phantom equity
comes back with the "recent" decay factor 0.95 applied to the stored P&L:
`equity' = 10000 + 0.95 · (equity − 10000)`, which equals the saved equity
only at the 10000 baseline — not within floating tolerance in general. -/
theorem c4_round_trip (s : Strategy) (hoursOld : ℚ) (hfresh : hoursOld ≤ 1) :
    (roundTrip s hoursOld).name = s.name ∧
    (roundTrip s hoursOld).family = s.family ∧
    (roundTrip s hoursOld).direction = s.direction ∧
    (roundTrip s hoursOld).params = s.params ∧
    (roundTrip s hoursOld).phantom_equity = 10000 + (s.phantom_equity - 10000) * (19/20) := by
  have hd : decayFor hoursOld = 19/20 := by
    unfold decayFor
    rw [if_neg (not_lt.mpr hfresh)]
  unfold roundTrip
  rw [hd]
  exact ⟨rfl, rfl, rfl, rfl, rfl⟩

/-- Witness for `c4_round_trip` at the profitable genotype `richTH`. -/
theorem c4_round_trip_witness :
    (0 : ℚ) ≤ 1 ∧ (roundTrip richTH 0).name = richTH.name :=
  ⟨by norm_num, (c4_round_trip richTH 0 (by norm_num)).1⟩

/-- C4 counterexample: saving a genotype with phantom equity 12000 and
reloading immediately (age 0, within the freshness threshold) yields 11900,
off by 100 — the decay factor for a recent snapshot is 0.95, not ≈ 1.0, so
equity is not reproduced within floating tolerance. -/
theorem c4_counterexample :
    (roundTrip richTH 0).phantom_equity = 11900 ∧
    richTH.phantom_equity = 12000 ∧
    (roundTrip richTH 0).phantom_equity ≠ richTH.phantom_equity := by
  refine ⟨?_, rfl, ?_⟩ <;>
    norm_num [roundTrip, loadEntry, saveEntry, decayFor, mkFresh, richTH, thFresh]

/-- The regime boost is one of {1, 1.5, 0.6, 0.85, 1.2, 0.7}: always
positive. -/
theorem regimeBoost_pos (name : String) (dir : Direction) (rg : Option Regime) :
    0 < regimeBoost name dir rg := by
  unfold regimeBoost
  cases rg with
  | none => norm_num
  | some r =>
    repeat' split
    all_goals norm_num

/-- The streak bonus is one of {1, 1.1, 1.25, 1.5}: always positive. -/
theorem streakBonus_pos (w : ℕ) : 0 < streakBonus w := by
  unfold streakBonus
  split_ifs <;> norm_num

/-- C5 (amended): `get_quality_score` is strictly increasing in
`phantom_equity` (with the data-model invariant `max_drawdown ≥ 0` keeping
the penalty divisor positive), and strictly decreasing in `max_drawdown`
provided `phantom_equity > 0`.  The positivity proviso is forced: for a
genotype with negative phantom equity the score is increasing in
`max_drawdown` (see the counterexample). -/
theorem c5_quality_monotone (s : Strategy) (rg : Option Regime) (p1 p2 d1 d2 : ℚ) :
    (0 ≤ s.max_drawdown → p1 < p2 →
      get_quality_score { s with phantom_equity := p1 } rg <
        get_quality_score { s with phantom_equity := p2 } rg) ∧
    (0 ≤ d1 → d1 < d2 → 0 < s.phantom_equity →
      get_quality_score { s with max_drawdown := d2 } rg <
        get_quality_score { s with max_drawdown := d1 } rg) := by
  have hB := regimeBoost_pos s.name s.direction rg
  have hW := streakBonus_pos s.win_streak
  constructor
  · intro hdd hp
    show p1 * regimeBoost s.name s.direction rg * streakBonus s.win_streak /
        (1 + s.max_drawdown * 2) <
      p2 * regimeBoost s.name s.direction rg * streakBonus s.win_streak /
        (1 + s.max_drawdown * 2)
    have hpen : (0:ℚ) < 1 + s.max_drawdown * 2 := by linarith
    rw [div_lt_div_iff hpen hpen]
    have h1 := mul_lt_mul_of_pos_right (mul_lt_mul_of_pos_right hp hB) hW
    exact mul_lt_mul_of_pos_right h1 hpen
  · intro hd1 hd12 hph
    show s.phantom_equity * regimeBoost s.name s.direction rg * streakBonus s.win_streak /
        (1 + d2 * 2) <
      s.phantom_equity * regimeBoost s.name s.direction rg * streakBonus s.win_streak /
        (1 + d1 * 2)
    have hK : 0 < s.phantom_equity * regimeBoost s.name s.direction rg *
        streakBonus s.win_streak := mul_pos (mul_pos hph hB) hW
    have hpen1 : (0:ℚ) < 1 + d1 * 2 := by linarith
    have hpen2 : (0:ℚ) < 1 + d2 * 2 := by linarith
    rw [div_lt_div_iff hpen2 hpen1]
    nlinarith

/-- Witness for `c5_quality_monotone` at a fresh `TrendHawk`. -/
theorem c5_quality_monotone_witness :
    ((0:ℚ) ≤ thFresh.max_drawdown ∧ (0:ℚ) < 1) ∧
    get_quality_score { thFresh with phantom_equity := 0 } none <
      get_quality_score { thFresh with phantom_equity := 1 } none :=
  ⟨⟨by norm_num [thFresh, mkFresh], by norm_num⟩,
   (c5_quality_monotone thFresh none 0 1 0 1).1 (by norm_num [thFresh, mkFresh])
     (by norm_num)⟩

/-- C5 counterexample: for a genotype with phantom equity −1000 the quality
score rises from −1000 to −500 as `max_drawdown` goes from 0 to 0.5, so the
score is not (even weakly) decreasing in `max_drawdown` on all states. -/
theorem c5_counterexample :
    ¬ (get_quality_score { losingStrat with max_drawdown := 1/2 } none ≤
        get_quality_score { losingStrat with max_drawdown := 0 } none) := by
  norm_num [get_quality_score, losingStrat, thFresh, mkFresh, regimeBoost, streakBonus]

/-- C6: whenever fewer than 3 valid rescaled-range points are collected —
in particular for any series shorter than 22 points, which yields no lag at
all — `_calculate_hurst` returns exactly 0.5, for every possible
least-squares fit; the embedded function is total, matching the source's
catch-all `try/except` (no error propagates). -/
theorem c6_hurst_neutral (fit : List ℕ → List ℚ → ℚ) (ts : List ℚ)
    (h : (validHurstLags ts).length < 3) :
    calculate_hurst fit ts = 1/2 := by
  unfold calculate_hurst
  rw [if_pos h]

/-- Witness for `c6_hurst_neutral` on the 3-point series `[1, 2, 3]`. -/
theorem c6_hurst_neutral_witness :
    (validHurstLags [1, 2, 3]).length < 3 ∧ calculate_hurst zeroFit [1, 2, 3] = 1/2 :=
  ⟨by decide, c6_hurst_neutral zeroFit [1, 2, 3] (by decide)⟩

/-- C7 (amended): on any numerical failure `_calculate_entropy` returns
exactly 1.0, in either code path; and in the scipy path (which renormalizes
the non-empty bins into probabilities) the normalized entropy lies in
`[0, 1]` whenever at least one bin is non-empty.  The degraded manual path
feeds the unnormalized density values to the logarithm and its result can
leave `[0, 1]` — see the counterexample. -/
theorem c7_entropy_range (data : List ℚ) (ml : Bool)
    (hne : (nzBins data).Nonempty) :
    calculate_entropy ml true data = 1 ∧
    0 ≤ calculate_entropy true false data ∧
    calculate_entropy true false data ≤ 1 := by
  have hpos : ∀ i ∈ nzBins data, (0:ℝ) < (dens data i : ℚ) := by
    intro i hi
    have := (Finset.mem_filter.mp hi).2
    exact_mod_cast this
  have hS : (0:ℝ) < ∑ j ∈ nzBins data, ((dens data j : ℚ) : ℝ) :=
    Finset.sum_pos hpos hne
  have hp : ∀ i ∈ nzBins data,
      (0:ℝ) < ((dens data i : ℚ) : ℝ) / ∑ j ∈ nzBins data, ((dens data j : ℚ) : ℝ) := by
    intro i hi
    exact div_pos (hpos i hi) hS
  have hple : ∀ i ∈ nzBins data,
      ((dens data i : ℚ) : ℝ) / (∑ j ∈ nzBins data, ((dens data j : ℚ) : ℝ)) ≤ 1 := by
    intro i hi
    rw [div_le_one hS]
    exact Finset.single_le_sum (fun j hj => (hpos j hj).le) hi
  have hsum1 : ∑ i ∈ nzBins data,
      ((dens data i : ℚ) : ℝ) / (∑ j ∈ nzBins data, ((dens data j : ℚ) : ℝ)) = 1 := by
    rw [← Finset.sum_div]
    exact div_self hS.ne'
  have hent0 : 0 ≤ entScipy data := by
    unfold entScipy
    refine Finset.sum_nonneg (fun i hi => ?_)
    have hlog : Real.log ((dens data i : ℚ) / ∑ j ∈ nzBins data, ((dens data j : ℚ) : ℝ)) ≤ 0 :=
      Real.log_nonpos (hp i hi).le (hple i hi)
    have := mul_nonpos_of_nonneg_of_nonpos (hp i hi).le hlog
    linarith
  have hcard : 0 < (nzBins data).card := Finset.card_pos.mpr hne
  have hcard20 : (nzBins data).card ≤ 20 := by
    calc (nzBins data).card ≤ (Finset.range 20).card :=
          Finset.card_le_card (Finset.filter_subset _ _)
      _ = 20 := Finset.card_range 20
  have hentle : entScipy data ≤ Real.log 20 := by
    unfold entScipy
    have hjensen := (strictConcaveOn_log_Ioi.concaveOn).le_map_sum
      (t := nzBins data)
      (w := fun i => ((dens data i : ℚ) : ℝ) / ∑ j ∈ nzBins data, ((dens data j : ℚ) : ℝ))
      (p := fun i => (((dens data i : ℚ) : ℝ) / ∑ j ∈ nzBins data, ((dens data j : ℚ) : ℝ))⁻¹)
      (fun i hi => (hp i hi).le) hsum1
      (fun i hi => Set.mem_Ioi.mpr (inv_pos.mpr (hp i hi)))
    have hrw : ∀ i ∈ nzBins data,
        -(((dens data i : ℚ) : ℝ) / (∑ j ∈ nzBins data, ((dens data j : ℚ) : ℝ)) *
          Real.log ((dens data i : ℚ) / ∑ j ∈ nzBins data, ((dens data j : ℚ) : ℝ))) =
        (((dens data i : ℚ) : ℝ) / (∑ j ∈ nzBins data, ((dens data j : ℚ) : ℝ))) •
          Real.log ((((dens data i : ℚ) : ℝ) /
            (∑ j ∈ nzBins data, ((dens data j : ℚ) : ℝ)))⁻¹) := by
      intro i hi
      rw [Real.log_inv, smul_eq_mul]
      ring
    rw [Finset.sum_congr rfl hrw]
    refine le_trans hjensen ?_
    have hone : ∑ i ∈ nzBins data,
        (((dens data i : ℚ) : ℝ) / (∑ j ∈ nzBins data, ((dens data j : ℚ) : ℝ))) •
          ((((dens data i : ℚ) : ℝ) / (∑ j ∈ nzBins data, ((dens data j : ℚ) : ℝ)))⁻¹) =
        ((nzBins data).card : ℝ) := by
      rw [Finset.sum_congr rfl
        (fun i hi => by rw [smul_eq_mul, mul_inv_cancel₀ (hp i hi).ne'])]
      rw [Finset.sum_const, nsmul_eq_mul, mul_one]
    rw [hone]
    exact Real.log_le_log (by exact_mod_cast hcard) (by exact_mod_cast hcard20)
  have hlog20 : (0:ℝ) < Real.log 20 := Real.log_pos (by norm_num)
  refine ⟨by unfold calculate_entropy; rw [if_pos rfl], ?_, ?_⟩
  · unfold calculate_entropy
    rw [if_neg (by simp)]
    simp only [if_pos rfl]
    exact div_nonneg hent0 hlog20.le
  · unfold calculate_entropy
    rw [if_neg (by simp)]
    simp only [if_pos rfl]
    rw [div_le_one hlog20]
    exact hentle

/-- The histogram range chosen for `cexData` is `(0, 1/2)`. -/
theorem cex_histRange : histRange cexData = (0, 1/2) := by
  norm_num [histRange, listMin, listMax, cexData, List.foldl, min_def, max_def]

/-- The point `0` of `cexData` lands in bin 0. -/
theorem cex_bi0 : binIndex 0 (1/40) 0 = 0 := by
  norm_num [binIndex]

/-- The point `1/2` of `cexData` (the histogram's right edge) lands in the
right-closed last bin 19. -/
theorem cex_bi19 : binIndex 0 (1/40) (1/2) = 19 := by
  have h : ((1:ℚ)/2 - 0) / (1/40) = 20 := by norm_num
  unfold binIndex
  rw [h]
  norm_num

/-- Bin occupancy of `cexData`: one point in bin 0, one in bin 19. -/
theorem cex_binCount (i : ℕ) :
    binCount cexData i = if 0 = i then 1 else if 19 = i then 1 else 0 := by
  have hW : binCount cexData i = binCountW 0 (1/40) cexData i := by
    unfold binCount
    rw [cex_histRange]
    norm_num
  rw [hW]
  unfold binCountW
  by_cases h0 : 0 = i
  · subst h0
    norm_num [cexData, List.filter, cex_bi0, cex_bi19]
  · by_cases h19 : 19 = i
    · subst h19
      norm_num [cexData, List.filter, cex_bi0, cex_bi19]
    · rw [if_neg h0, if_neg h19]
      norm_num [cexData, List.filter, cex_bi0, cex_bi19, h0, h19]
      try omega

/-- Density values of `cexData`: `20` on the two occupied bins. -/
theorem cex_dens (i : ℕ) :
    dens cexData i = if 0 = i then 20 else if 19 = i then 20 else 0 := by
  unfold dens
  rw [cex_binCount i, cex_histRange]
  split_ifs <;> norm_num [cexData]

/-- The non-empty bins of `cexData` are exactly `{0, 19}`. -/
theorem cex_nzBins : nzBins cexData = {0, 19} := by
  unfold nzBins
  ext i
  simp only [Finset.mem_filter, Finset.mem_range, Finset.mem_insert,
    Finset.mem_singleton, cex_dens]
  split_ifs with h1 h2 <;> norm_num <;> omega

/-- Witness for `c7_entropy_range` on the concrete series `cexData`. -/
theorem c7_entropy_range_witness :
    (nzBins cexData).Nonempty ∧ 0 ≤ calculate_entropy true false cexData :=
  ⟨by rw [cex_nzBins]; exact ⟨0, by decide⟩,
   (c7_entropy_range cexData true (by rw [cex_nzBins]; exact ⟨0, by decide⟩)).2.1⟩

/-- The directional filter never raises on a raw signal that was produced:
it either passes the signal through or converts it to a silent HOLD. -/
theorem generate_signal_ok (dir : Direction) (sig : Signal) :
    ∃ s2, generate_signal dir (Except.ok sig) = Except.ok s2 := by
  unfold generate_signal
  dsimp only
  split_ifs <;> exact ⟨_, rfl⟩

/-- On a non-empty window `TrendHawk._generate_raw_signal` always returns a
signal dict (never raises). -/
theorem trendHawkRaw_ok (params : Params) (dir : Direction) (df : List Bar)
    (ind : Indicators) (hne : df ≠ []) :
    ∃ sig, trendHawkRaw params dir df ind = Except.ok sig := by
  obtain ⟨b, hb⟩ := Option.isSome_iff_exists.mp (List.getLast?_isSome.mpr hne)
  unfold trendHawkRaw
  rw [hb]
  dsimp only
  cases hmax : rollingMaxLast (params.period.getD 20) (df.map Bar.high) with
  | none =>
    cases hmin : rollingMinLast (params.period.getD 20) (df.map Bar.low) with
    | none => exact ⟨_, rfl⟩
    | some lx => exact ⟨_, rfl⟩
  | some hx =>
    cases hmin : rollingMinLast (params.period.getD 20) (df.map Bar.low) with
    | none => exact ⟨_, rfl⟩
    | some lx =>
      dsimp only
      split_ifs <;> exact ⟨_, rfl⟩

/-- C8 (amended): for a `TrendHawk` genotype and any NON-EMPTY price window,
`generate_signal` never raises; and whenever the window has insufficient
lookback for the configured period (`len(df) ≤ period`, so the shifted
rolling extremes at the last bar are NaN) the result is exactly the HOLD
signal with the human-readable reason "Insufficient Data for Period".  On
an empty window the claim fails: the initial `df.iloc[-1]` raises
`IndexError` (see the counterexample). -/
theorem c8_insufficient_hold (params : Params) (dir : Direction) (df : List Bar)
    (ind : Indicators) (hne : df ≠ []) :
    (∃ sig, trendHawkSignal params dir df ind = Except.ok sig) ∧
    (1 ≤ params.period.getD 20 → df.length ≤ params.period.getD 20 →
      trendHawkSignal params dir df ind =
        Except.ok (holdWith "Insufficient Data for Period")) := by
  constructor
  · obtain ⟨sig, hsig⟩ := trendHawkRaw_ok params dir df ind hne
    unfold trendHawkSignal
    rw [hsig]
    exact generate_signal_ok dir sig
  · intro hper hlen
    have hmax : rollingMaxLast (params.period.getD 20) (df.map Bar.high) = none := by
      unfold rollingMaxLast
      rw [if_neg]
      rw [List.length_dropLast, List.length_map]
      omega
    obtain ⟨b, hb⟩ := Option.isSome_iff_exists.mp (List.getLast?_isSome.mpr hne)
    unfold trendHawkSignal
    unfold trendHawkRaw
    rw [hb]
    dsimp only
    rw [hmax]
    cases hmin : rollingMinLast (params.period.getD 20) (df.map Bar.low) with
    | none => rfl
    | some lx => rfl

/-- Witness for `c8_insufficient_hold` on a 1-bar window with the default
period 20. -/
theorem c8_insufficient_hold_witness :
    ([({ high := 2, low := 1, close := 3 } : Bar)] ≠ ([] : List Bar)) ∧
    trendHawkSignal {} Direction.LONG [{ high := 2, low := 1, close := 3 }] {} =
      Except.ok (holdWith "Insufficient Data for Period") :=
  ⟨by simp,
   (c8_insufficient_hold {} Direction.LONG [{ high := 2, low := 1, close := 3 }] {}
     (by simp)).2 (by decide) (by decide)⟩

/-- C8 counterexample: on an EMPTY price window `TrendHawk`'s signal
generation raises (`df.iloc[-1]` is evaluated before any insufficiency
check), instead of returning a HOLD — so "never raises, including an empty
window" fails as stated. -/
theorem c8_counterexample :
    trendHawkSignal {} Direction.LONG [] {} =
      Except.error "IndexError: single positional indexer is out-of-bounds" := rfl

/-- C9: `save_state`'s write sequence never leaves the target snapshot path
holding a half-written file: at every crash-reachable intermediate state
the target is either the intact previous snapshot, absent (between
`os.remove` and `os.rename`), or the complete new snapshot. -/
theorem c9_atomic_save (s0 : FS) (d : ℕ) (s : FS)
    (h : s ∈ saveStates s0 d) (h0 : targetParseable s0) : targetParseable s := by
  unfold saveStates at h
  simp only [List.mem_cons, List.not_mem_nil, or_false] at h
  rcases h with h | h | h | h | h <;> subst h
  · exact h0
  · exact h0
  · exact h0
  · intro hc
    cases hc
  · intro hc
    cases hc

/-- Witness for `c9_atomic_save`: the state after the old target was
removed, with the fresh temp file complete. -/
theorem c9_atomic_save_witness :
    ({ target := FileContent.absent, temp := FileContent.full 1 } : FS) ∈
        saveStates { target := FileContent.full 0, temp := FileContent.absent } 1 ∧
    targetParseable { target := FileContent.absent, temp := FileContent.full 1 } :=
  ⟨by decide,
   c9_atomic_save { target := FileContent.full 0, temp := FileContent.absent } 1
     { target := FileContent.absent, temp := FileContent.full 1 } (by decide) (by decide)⟩

/-- C7 counterexample: in the degraded (scipy-missing) path the entropy of
the clustered series `cexData` is negative — both occupied bin densities
are `20 > 1`, so `-Σ h·ln h = -40·ln 20 < 0`, and dividing by `ln 20 > 0`
gives exactly `-40`.  The result is not in `[0, 1]`. -/
theorem c7_counterexample :
    ¬ (0 ≤ calculate_entropy false false cexData) := by
  have hman : entManual cexData = -(2 * ((20 : ℝ) * Real.log 20)) := by
    unfold entManual
    rw [cex_nzBins]
    rw [Finset.sum_pair (by omega : (0:ℕ) ≠ 19)]
    rw [cex_dens 0, cex_dens 19]
    norm_num
    ring
  unfold calculate_entropy
  rw [if_neg (by simp), if_neg (by simp), hman]
  intro habs
  have hlog20 : (0:ℝ) < Real.log 20 := Real.log_pos (by norm_num)
  have hneg : -(2 * ((20 : ℝ) * Real.log 20)) < 0 := by nlinarith
  have := div_neg_of_neg_of_pos hneg hlog20
  linarith

/-- Inserting an element into a run of copies of itself changes nothing but
the length (the insertion sort is stable, so equals stay in place). -/
theorem insertDesc_replicate (x : Strategy) (n : ℕ) :
    insertDesc x (List.replicate n x) = List.replicate (n + 1) x := by
  induction n with
  | zero => rfl
  | succ n ih =>
    rw [List.replicate_succ]
    unfold insertDesc
    rw [if_neg (lt_irrefl _)]
    rw [ih]
    rfl

/-- Sorting a constant population is the identity. -/
theorem sortPop_replicate (n : ℕ) (x : Strategy) :
    sortPop (List.replicate n x) = List.replicate n x := by
  induction n with
  | zero => rfl
  | succ n ih =>
    rw [List.replicate_succ]
    unfold sortPop
    rw [ih, insertDesc_replicate]
    rfl

set_option maxRecDepth 20000 in
/-- C1, evaluation at the failing input: starting from a 500-member
population consisting solely of fresh `TrendHawk LONG` genotypes,
`evolve_population` returns a population in which the required
(TrendHawk, SHORT) pair is NOT represented (each extinction-protection
injection overwrites slot `[-1]`, clobbering the previously injected seed,
so of the ten missing species only the last — TrendPullback SHORT —
survives), even though the size stays at 100.  And from 505 members the
elite count `max(5, ⌊count/5⌋) = 101` already exceeds the hard cap, so the
returned population has 101 > 100 members. -/
theorem c1_extinction_clobber :
    (evolve_population (List.replicate 500 thFresh) oracleZero 1).map
        (fun r => (hasSpecies r Family.TrendHawk Direction.SHORT, r.length)) =
      some (false, 100) ∧
    (evolve_population (List.replicate 505 thFresh) oracleZero 1).map List.length =
      some 101 := by
  constructor
  · unfold evolve_population
    rw [sortPop_replicate 500 thFresh]
    dsimp only
    norm_num [List.take_replicate]
    refine ⟨List.replicate 100 thFresh, ?_, by decide, by decide⟩
    unfold fillLoop
    rw [if_pos (by simp)]
  · unfold evolve_population
    rw [sortPop_replicate 505 thFresh]
    dsimp only
    norm_num [List.take_replicate]
    refine ⟨List.replicate 101 thFresh, ?_, by decide⟩
    unfold fillLoop
    rw [if_pos (by simp)]

/-- With a parent pool consisting only of the Sniper (whose mutation is an
exact clone keeping the name `"Sniper_Elite"`), the fill loop makes no
progress: every generated child is rejected as a duplicate, for any amount
of fuel. -/
theorem fillLoop_sniper_stuck (i fuel : ℕ) :
    fillLoop [arbStrat] oracleZero i fuel (List.replicate 2 arbStrat) = none := by
  induction fuel generalizing i with
  | zero =>
    unfold fillLoop
    rw [if_neg (by simp)]
  | succ f ih =>
    unfold fillLoop
    rw [if_neg (by simp)]
    dsimp only
    rw [show childOf [arbStrat] (oracleZero i) =
        some (mutateS arbStrat { u := 0, sign := true, k := 0 }) from rfl]
    dsimp only
    rw [if_pos (by decide)]
    exact ih (i + 1)

/-- C10 counterexample: `evolve_population` does not terminate for every
non-empty population.  Starting from two copies of the Sniper genotype, the
parent pool is `[Sniper_Elite]`, whose mutated clone always carries the
name already present among the elites, so the duplicate-name check rejects
every child and the fill loop never reaches the cap — no fuel bound makes
the call return. -/
theorem c10_counterexample :
    ¬ ∃ fuel, (evolve_population (List.replicate 2 arbStrat) oracleZero fuel).isSome = true := by
  rintro ⟨fuel, hf⟩
  unfold evolve_population at hf
  rw [sortPop_replicate 2 arbStrat] at hf
  dsimp only at hf
  rw [show (List.replicate 2 arbStrat).take
        (max 5 ((List.replicate 2 arbStrat).length / 5)) =
        List.replicate 2 arbStrat from by decide] at hf
  rw [show (List.replicate 2 arbStrat).take ((List.replicate 2 arbStrat).length / 2) =
        [arbStrat] from by decide] at hf
  rw [fillLoop_sniper_stuck 0 fuel] at hf
  simp at hf

/-- C10 (amended): the fill loop makes progress exactly when the mutated
child's name is fresh, so it does terminate whenever the supplied random
draws keep producing fresh names until the cap: if within the next `n`
steps every generated child name differs from every name in the
accumulator and from the other generated names, and `n` covers the
remaining slots, the loop returns.  (By `fillLoop_sniper_stuck` /
`c10_counterexample` this freshness assumption is not vacuous decoration:
pools whose clones keep their parent's name violate it forever and the
loop genuinely diverges.) -/
theorem c10_fill_terminates (pool : List Strategy) (oracle : ℕ → Choice) :
    ∀ (n i : ℕ) (acc : List Strategy),
      pool ≠ [] →
      100 ≤ acc.length + n →
      (∀ j, i ≤ j → j < i + n →
        ∀ s ∈ acc, s.name ≠ (childD pool (oracle j)).name) →
      (∀ j k, i ≤ j → j < k → k < i + n →
        (childD pool (oracle j)).name ≠ (childD pool (oracle k)).name) →
      ∃ r, fillLoop pool oracle i n acc = some r := by
  intro n
  induction n with
  | zero =>
    intro i acc hpool hlen _ _
    refine ⟨acc, ?_⟩
    unfold fillLoop
    rw [if_pos (by omega)]
  | succ m ih =>
    intro i acc hpool hlen hfresh hdist
    by_cases hfull : 100 ≤ acc.length
    · exact ⟨acc, by unfold fillLoop; rw [if_pos hfull]⟩
    · obtain ⟨p, ps, rfl⟩ : ∃ p ps, pool = p :: ps := by
        cases pool with
        | nil => exact absurd rfl hpool
        | cons p ps => exact ⟨p, ps, rfl⟩
      have hany : (acc.any
          (fun s => s.name == (childD (p :: ps) (oracle i)).name)) = false := by
        rw [List.any_eq_false]
        intro s hs
        simp only [beq_iff_eq]
        exact hfresh i (le_refl i) (by omega) s hs
      have hstep : fillLoop (p :: ps) oracle i (m + 1) acc =
          fillLoop (p :: ps) oracle (i + 1) m
            (acc ++ [childD (p :: ps) (oracle i)]) := by
        conv_lhs => unfold fillLoop
        rw [if_neg hfull]
        dsimp only
        rw [show childOf (p :: ps) (oracle i) = some (childD (p :: ps) (oracle i)) from rfl]
        dsimp only
        rw [hany]
        rfl
      rw [hstep]
      apply ih (i + 1) (acc ++ [childD (p :: ps) (oracle i)]) hpool
      · rw [List.length_append, List.length_singleton]
        omega
      · intro j hj1 hj2 s hs
        rcases List.mem_append.mp hs with hs' | hs'
        · exact hfresh j (by omega) (by omega) s hs'
        · rw [List.mem_singleton.mp hs']
          exact hdist i j (le_refl i) (by omega) (by omega)
      · intro j k hj hjk hk
        exact hdist j k (by omega) hjk (by omega)

/-- Witness for `c10_fill_terminates`: a 99-member accumulator, a pool of
one `TrendHawk`, and one step whose zero-drift mutation produces the fresh
name `"TrendHawk_LONG_22p"`. -/
theorem c10_fill_terminates_witness :
    ∃ r, fillLoop [thFresh] oracleZero 0 1 (List.replicate 99 thFresh) = some r := by
  have hname : (childD [thFresh] (oracleZero 0)).name = "TrendHawk_LONG_22p" := by
    show (mutateS thFresh { u := 0, sign := true, k := 0 }).name = _
    unfold mutateS
    dsimp only [thFresh, mkFresh, Option.getD]
    rw [mul_zero]
    rw [show intTrunc (0 : ℚ) = 0 from by
      unfold intTrunc
      norm_num]
    decide
  apply c10_fill_terminates [thFresh] oracleZero 1 0 (List.replicate 99 thFresh)
    (by simp) (by simp)
  · intro j hj1 hj2 s hs
    have hj : j = 0 := by omega
    subst hj
    rw [List.eq_of_mem_replicate hs, hname]
    decide
  · intro j k hj hjk hk
    omega

end Darwin
